import Mathlib

/-!
Verification of the message-formatting and filter-rule core of
`smtp_to_telegram` (file `smtp_to_telegram.go`).

Shallow embedding conventions:
* Go strings that are manipulated rune-wise are modelled as `List Char`
  (one element per Unicode code point, exactly what Go's `[]rune` yields
  on valid UTF-8 input).
* Go `uint` lengths are `Nat`; Go `int` size limits are `Int`.
* Byte lengths of rendered text (`len(s)` on a Go string) are recovered by
  `utf8ByteLength`, summing the UTF-8 size of each code point.
* Raw MIME part bytes are modelled as opaque `List Char` sequences whose
  list length stands for the byte length `len(part.Content)`.
* The two run-time panics inside `FormatMessage` (the rune-slice bounds
  panic and the `errUnexpectedTruncation` panic) are modelled as the
  `Except` error cases of `FormatPanic`.
-/

namespace SmtpToTelegram

/-- Character list of a string literal (Go strings used rune-wise). -/
def strL (s : String) : List Char := s.data

/-- Go `unicode.IsSpace`: the Unicode White_Space property, the set used by
`strings.TrimSpace`. -/
def isGoSpace (c : Char) : Bool :=
  c == '\t' || c == '\n' || c == '\u000B' || c == '\u000C' || c == '\r' || c == ' ' ||
  c == '\u0085' || c == '\u00A0' || c == '\u1680' ||
  ('\u2000' ≤ c && c ≤ '\u200A') ||
  c == '\u2028' || c == '\u2029' || c == '\u202F' || c == '\u205F' || c == '\u3000'

/-- Leading-whitespace trim (left half of Go `strings.TrimSpace`). -/
def ltrim (l : List Char) : List Char := l.dropWhile isGoSpace

/-- Trailing-whitespace trim (right half of Go `strings.TrimSpace`). -/
def rtrim (l : List Char) : List Char := (ltrim l.reverse).reverse

/-- Go `strings.TrimSpace`: remove leading and trailing Unicode whitespace. -/
def trimSpace (l : List Char) : List Char := ltrim (rtrim l)

/-- UTF-8 encoded size in bytes of one code point. -/
def utf8CharSize (c : Char) : Nat :=
  if c.toNat < 0x80 then 1
  else if c.toNat < 0x800 then 2
  else if c.toNat < 0x10000 then 3
  else 4

/-- Byte length of a Go string (`len(s)` on the UTF-8 representation). -/
def utf8ByteLength (l : List Char) : Nat := (l.map utf8CharSize).foldl (· + ·) 0

/-- First replacement pair whose (non-empty) pattern is a prefix of `s`.
This is the selection rule of Go's `strings.NewReplacer`: at each input
position the earliest-listed matching pattern wins. -/
def findRepl (pairs : List (List Char × List Char)) (s : List Char) :
    Option (List Char × List Char) :=
  match pairs with
  | [] => none
  | p :: rest => if !p.1.isEmpty && p.1.isPrefixOf s then some p else findRepl rest s

/-- Single left-to-right pass of Go `strings.Replacer.Replace`: at each
position substitute the first matching pattern (replacements are not
re-scanned), otherwise copy one character.  Structural on a fuel counter;
`goReplace` instantiates the fuel with the input length, which suffices
because each step consumes at least one character. -/
def goReplaceFuel (pairs : List (List Char × List Char)) :
    Nat → List Char → List Char
  | 0, s => s
  | _ + 1, [] => []
  | fuel + 1, c :: rest =>
    match findRepl pairs (c :: rest) with
    | some (pat, rep) => rep ++ goReplaceFuel pairs fuel (List.drop pat.length (c :: rest))
    | none => c :: goReplaceFuel pairs fuel rest

/-- Go `strings.NewReplacer(...).Replace` for non-overlapping patterns. -/
def goReplace (pairs : List (List Char × List Char)) (s : List Char) : List Char :=
  goReplaceFuel pairs s.length s

/-- Constant `BodyTruncated = "\n\n[truncated]"`. -/
def BodyTruncated : List Char := strL "\n\n[truncated]"

/-- Replacement pairs built by `FormatMessage`, in source order:
`"\\n"`, `"{from}"`, `"{to}"`, `"{subject}"`, `"{body}"`,
`"{attachments_details}"`. -/
def replacerPairs (fromA toA subject body details : List Char) :
    List (List Char × List Char) :=
  [(strL "\\n", strL "\n"),
   (strL "{from}", fromA),
   (strL "{to}", toA),
   (strL "{subject}", subject),
   (strL "{body}", body),
   (strL "{attachments_details}", details)]

/-- Default value of the `message-template` flag. -/
def defaultMessageTemplate : List Char :=
  strL "From: {from}\\nTo: {to}\\nSubject: {subject}\\n\\n{body}\\n\\n{attachments_details}"

/-- Subset of `TelegramConfig` consumed by the formatter. -/
structure TelegramConfig where
  messageTemplate : List Char
  forwardedAttachmentMaxSize : Int
  forwardedAttachmentMaxPhotoSize : Int
  messageLengthToSendAsFile : Nat
deriving DecidableEq

/-- Template rendering followed by `strings.TrimSpace`, shared by the three
renders inside `FormatMessage`. -/
def renderMessage (fromA toA subject body details template : List Char) : List Char :=
  trimSpace (goReplace (replacerPairs fromA toA subject body details) template)

/-- The `fullMessageText` value of `FormatMessage`: body is the trimmed
input text. -/
def fullRender (fromA toA subject text details : List Char) (cfg : TelegramConfig) :
    List Char :=
  renderMessage fromA toA subject (trimSpace text) details cfg.messageTemplate

/-- The `emptyMessageText` value of `FormatMessage`: body is
`strings.TrimSpace("." + BodyTruncated)`, used to measure the template's
fixed overhead. -/
def emptyRender (fromA toA subject details : List Char) (cfg : TelegramConfig) :
    List Char :=
  renderMessage fromA toA subject (trimSpace ('.' :: BodyTruncated)) details
    cfg.messageTemplate

/-- The `truncatedMessageText` value of `FormatMessage`: body is the first
`maxBodyLength` runes of the trimmed text followed by the truncation
marker. -/
def truncRender (fromA toA subject text details : List Char) (maxBodyLength : Nat)
    (cfg : TelegramConfig) : List Char :=
  renderMessage fromA toA subject
    (trimSpace ((trimSpace text).take maxBodyLength ++ BodyTruncated)) details
    cfg.messageTemplate

/-- Panics of `FormatMessage`: the rune-slice bounds panic at
`[]rune(strings.TrimSpace(text))[:maxBodyLength]`, and the
`errUnexpectedTruncation` panic of the final length check. -/
inductive FormatPanic where
  | sliceOutOfRange
  | unexpectedTruncation
deriving DecidableEq

/-- Go `FormatMessage`: returns the full rendering and (when truncation is
needed) a truncated rendering; an empty second component means no
truncation was needed. -/
def FormatMessage (fromA toA subject text details : List Char) (cfg : TelegramConfig) :
    Except FormatPanic (List Char × List Char) :=
  if (fullRender fromA toA subject text details cfg).length ≤ cfg.messageLengthToSendAsFile then
    .ok (fullRender fromA toA subject text details cfg, [])
  else if (emptyRender fromA toA subject details cfg).length ≥ cfg.messageLengthToSendAsFile then
    .ok (fullRender fromA toA subject text details cfg,
         (fullRender fromA toA subject text details cfg).take cfg.messageLengthToSendAsFile)
  else if cfg.messageLengthToSendAsFile - (emptyRender fromA toA subject details cfg).length >
      (trimSpace text).length then
    .error .sliceOutOfRange
  else if (truncRender fromA toA subject text details
      (cfg.messageLengthToSendAsFile - (emptyRender fromA toA subject details cfg).length)
      cfg).length > cfg.messageLengthToSendAsFile then
    .error .unexpectedTruncation
  else
    .ok (fullRender fromA toA subject text details cfg,
         truncRender fromA toA subject text details
           (cfg.messageLengthToSendAsFile - (emptyRender fromA toA subject details cfg).length)
           cfg)

/-- Attachment type constants (Go `iota`). -/
def AttachmentTypeDocument : Nat := 0

/-- Attachment type constant for photos. -/
def AttachmentTypePhoto : Nat := 1

/-- Go `FormattedAttachment`.  `Content` is the raw content; for the
synthetic full-message attachment it is the rendered text itself
(`[]byte(s)` is the injective UTF-8 image of `s`). -/
structure FormattedAttachment where
  Filename : List Char
  Caption : List Char
  Content : List Char
  FileType : Nat
deriving DecidableEq

/-- Go `FormattedEmail`. -/
structure FormattedEmail where
  From : List Char
  To : List Char
  Subject : List Char
  Text : List Char
  HTML : List Char
  Attachments : List FormattedAttachment
deriving DecidableEq

/-- Failure modes of the formatting tail: a propagated `FormatMessage`
panic, or the `errMessageTooLarge` error return. -/
inductive FormatError where
  | panicked (p : FormatPanic)
  | messageTooLarge
deriving DecidableEq

/-- The synthetic attachment prepended when truncation happened. -/
def fullMessageAttachment (fullMessageText : List Char) : FormattedAttachment :=
  { Filename := strL "full_message.txt"
    Caption := strL "Full message"
    Content := fullMessageText
    FileType := AttachmentTypeDocument }

/-- Formatting tail of Go `FormatEmail` (the part after MIME parsing and
part classification): call `FormatMessage`; an empty truncated text means
"send the full rendering as-is"; otherwise reject oversized messages by
byte length and prepend the synthetic `full_message.txt` document. -/
def FormatEmail (fromA toA subject text details html : List Char)
    (attachments : List FormattedAttachment) (cfg : TelegramConfig) :
    Except FormatError FormattedEmail :=
  match FormatMessage fromA toA subject text details cfg with
  | .error p => .error (.panicked p)
  | .ok (fullMessageText, truncatedMessageText) =>
    if truncatedMessageText = [] then
      .ok { From := fromA, To := toA, Subject := subject, Text := fullMessageText,
            HTML := html, Attachments := attachments }
    else if (utf8ByteLength fullMessageText : Int) > cfg.forwardedAttachmentMaxSize then
      .error .messageTooLarge
    else
      .ok { From := fromA, To := toA, Subject := subject, Text := truncatedMessageText,
            HTML := html,
            Attachments := fullMessageAttachment fullMessageText :: attachments }

/-- Go `FilterCondition` after load: the declared field, the author's
pattern, and the compiled matcher.  The compiled regular expression of the
external `regexp` package is modelled as its matching function. -/
structure FilterCondition where
  field : List Char
  pattern : List Char
  regex : List Char → Bool

/-- Go `FilterRule`. -/
structure FilterRule where
  name : List Char
  Match : List Char
  Conditions : List FilterCondition

/-- Go `isValidFilterField`. -/
def isValidFilterField (field : List Char) : Bool :=
  field = strL "from" || field = strL "to" || field = strL "subject" ||
  field = strL "body" || field = strL "html" || field = strL "body_or_html"

/-- Go `evaluateCondition`: select the value named by the condition's field
and apply the compiled matcher; `body_or_html` tries body then html. -/
def evaluateCondition (cond : FilterCondition) (fromA toA subject body html : List Char) :
    Bool :=
  if cond.field = strL "from" then cond.regex fromA
  else if cond.field = strL "to" then cond.regex toA
  else if cond.field = strL "subject" then cond.regex subject
  else if cond.field = strL "body" then cond.regex body
  else if cond.field = strL "html" then cond.regex html
  else if cond.field = strL "body_or_html" then cond.regex body || cond.regex html
  else false

/-- Go `evaluateRule`: empty condition lists never match; `"any"` is OR
logic; anything else (after load only `"all"` remains) is AND logic. -/
def evaluateRule (rule : FilterRule) (fromA toA subject body html : List Char) : Bool :=
  if rule.Conditions.isEmpty then false
  else if rule.Match = strL "any" then
    rule.Conditions.any fun cond => evaluateCondition cond fromA toA subject body html
  else
    rule.Conditions.all fun cond => evaluateCondition cond fromA toA subject body html

/-- Go `checkFilterRules`: scan the loaded rules in order and report the
first rule that matches.  The global nil rule set behaves exactly like the
empty list here. -/
def checkFilterRules (filterRules : List FilterRule)
    (fromA toA subject body html : List Char) : Bool × List Char :=
  match filterRules with
  | [] => (false, [])
  | rule :: rest =>
    if evaluateRule rule fromA toA subject body html then (true, rule.name)
    else checkFilterRules rest fromA toA subject body html

/-- Pattern normalization in Go `loadFilterRules`: prepend the
case-insensitive directive unless the author already wrote it. -/
def normalizePattern (pattern : List Char) : List Char :=
  if (strL "(?i)").isPrefixOf pattern then pattern else strL "(?i)" ++ pattern

/-- ASCII case folding used by the model of case-insensitive matching. -/
def asciiFold (c : Char) : Char :=
  if 'A' ≤ c ∧ c ≤ 'Z' then Char.ofNat (c.toNat + 32) else c

/-- Substring test: does `needle` occur contiguously inside the second
list? -/
def containsSeq (needle : List Char) : List Char → Bool
  | [] => needle.isEmpty
  | c :: rest => needle.isPrefixOf (c :: rest) || containsSeq needle rest

/-- Modelled from the spec: the matching function that the external Go
`regexp` engine gives a compiled pattern of the shape `"(?i)" ++ literal`
where `literal` contains no metacharacters — it matches a string iff some
substring equals the literal up to case folding (ASCII folding here).
The engine itself is an external collaborator and is not part of the
repository source. -/
def regexpIMatch (literal : List Char) (s : List Char) : Bool :=
  containsSeq (literal.map asciiFold) (s.map asciiFold)

/-- Unvalidated condition as it comes out of the YAML document. -/
structure RawCondition where
  field : List Char
  pattern : List Char

/-- Unvalidated rule as it comes out of the YAML document; an absent
`match` key is the empty string. -/
structure RawFilterRule where
  name : List Char
  Match : List Char
  conditions : List RawCondition

/-- Outcome of reading and parsing the configuration source; reading the
file and YAML decoding are external collaborators, so only their result is
modelled. -/
inductive LoadSource where
  | emptyFilename
  | readError
  | parseError
  | parsed (rules : List RawFilterRule)

/-- Error cases of Go `loadFilterRules`. -/
inductive LoadError where
  | readFail
  | parseFail
  | invalidMatchType (ruleName badMatch : List Char)
  | invalidField (ruleName badField : List Char)
  | invalidPattern (ruleName badPattern : List Char)

/-- Per-condition step of the load loop: validate the field, then compile
the case-insensitive pattern (`compile` models `regexp.Compile`, `none`
standing for a compilation error). -/
def compileConditions (compile : List Char → Option (List Char → Bool))
    (ruleName : List Char) : List RawCondition → Except LoadError (List FilterCondition)
  | [] => .ok []
  | cond :: rest =>
    if isValidFilterField cond.field = false then
      .error (.invalidField ruleName cond.field)
    else
      match compile (normalizePattern cond.pattern) with
      | none => .error (.invalidPattern ruleName cond.pattern)
      | some regex =>
        match compileConditions compile ruleName rest with
        | .ok conds => .ok (⟨cond.field, cond.pattern, regex⟩ :: conds)
        | .error e => .error e

/-- Defaulting of an absent match mode to `"all"` in the load loop. -/
def defaultedMatch (rule : RawFilterRule) : List Char :=
  if rule.Match = [] then strL "all" else rule.Match

/-- Per-rule step of the load loop: default an absent match mode to
`"all"`, reject anything that is neither `"all"` nor `"any"`, then compile
the conditions. -/
def compileRule (compile : List Char → Option (List Char → Bool))
    (rule : RawFilterRule) : Except LoadError FilterRule :=
  if defaultedMatch rule ≠ strL "all" ∧ defaultedMatch rule ≠ strL "any" then
    .error (.invalidMatchType rule.name (defaultedMatch rule))
  else
    match compileConditions compile rule.name rule.conditions with
    | .ok conds => .ok ⟨rule.name, defaultedMatch rule, conds⟩
    | .error e => .error e

/-- Whole-list compilation; the first offending rule aborts the load. -/
def compileRules (compile : List Char → Option (List Char → Bool)) :
    List RawFilterRule → Except LoadError (List FilterRule)
  | [] => .ok []
  | rule :: rest =>
    match compileRule compile rule with
    | .error e => .error e
    | .ok compiled =>
      match compileRules compile rest with
      | .ok rules => .ok (compiled :: rules)
      | .error e => .error e

/-- Go `loadFilterRules` as a state transformer on the global `filterRules`
slice: the function clears the slice first (`filterRules = nil`), so the
previous rules never survive, and any failure leaves the empty rule set
active.  Returns the new global state plus the error value. -/
def loadFilterRules (compile : List Char → Option (List Char → Bool))
    (src : LoadSource) (previousRules : List FilterRule) :
    List FilterRule × Option LoadError :=
  match src with
  | .emptyFilename => ([], none)
  | .readError => ([], some .readFail)
  | .parseError => ([], some .parseFail)
  | .parsed rules =>
    match compileRules compile rules with
    | .ok compiled => (compiled, none)
    | .error e => ([], some e)

/-- One MIME part as handed over by the external `enmime` parser: raw
bytes (opaque sequence whose length is the byte count), declared content
type and filename. -/
structure MimePart where
  fileName : List Char
  contentType : List Char
  content : List Char

/-- Go `GuessContentType`: keep a concrete declared type; for the generic
octet-stream placeholder consult the (external, environment-dependent)
extension table `typeByExtension`, modelled as a function from the
filename to a guessed type, empty meaning unknown. -/
def GuessContentType (typeByExtension : List Char → List Char)
    (contentType fileName : List Char) : List Char :=
  if contentType ≠ strL "application/octet-stream" then contentType
  else
    let guessedType := typeByExtension fileName
    if guessedType ≠ [] then guessedType else contentType

/-- Go `FileIsImage`: the fixed photo allow-list. -/
def FileIsImage (contentType : List Char) : Bool :=
  contentType = strL "image/jpeg" || contentType = strL "image/png"

/-- Classification step of the `doParts` loop body in Go `FormatEmail`
(lines 702–729): resolve the effective content type, classify the part as
photo / document / discarded by the configured size ceilings, and produce
the attachment (if any) together with the action word of the
attachment-details line. -/
def processPart (typeByExtension : List Char → List Char) (part : MimePart)
    (cfg : TelegramConfig) : Option FormattedAttachment × List Char :=
  if FileIsImage (GuessContentType typeByExtension part.contentType part.fileName) &&
      decide ((part.content.length : Int) ≤ cfg.forwardedAttachmentMaxPhotoSize) then
    (some { Filename := part.fileName, Caption := part.fileName,
            Content := part.content, FileType := AttachmentTypePhoto },
     strL "sending...")
  else if (part.content.length : Int) ≤ cfg.forwardedAttachmentMaxSize then
    (some { Filename := part.fileName, Caption := part.fileName,
            Content := part.content, FileType := AttachmentTypeDocument },
     strL "sending...")
  else
    (none, strL "discarded")

/-! Basic facts about the whitespace trimming helpers. -/

theorem ltrim_cons_of_nonspace {c : Char} (h : isGoSpace c = false) (l : List Char) :
    ltrim (c :: l) = c :: l := by
  simp [ltrim, List.dropWhile_cons, h]

theorem rtrim_append (x y : List Char) :
    rtrim (x ++ y) = if rtrim y = [] then rtrim x else x ++ rtrim y := by
  by_cases h : rtrim y = []
  · rw [if_pos h]
    have h2 : (List.dropWhile isGoSpace y.reverse).isEmpty = true := by
      simp only [rtrim, ltrim] at h
      simpa [List.isEmpty_iff, List.reverse_eq_nil_iff] using h
    simp [rtrim, ltrim, List.reverse_append, List.dropWhile_append, h2]
  · rw [if_neg h]
    have h2 : (List.dropWhile isGoSpace y.reverse).isEmpty = false := by
      simp only [rtrim, ltrim] at h
      simpa [List.isEmpty_iff, List.reverse_eq_nil_iff] using h
    simp [rtrim, ltrim, List.reverse_append, List.dropWhile_append, h2]

theorem rtrim_concat_of_nonspace {c : Char} (h : isGoSpace c = false) (l : List Char) :
    rtrim (l ++ [c]) = l ++ [c] := by
  simp [rtrim, ltrim, List.reverse_append, List.dropWhile_cons, h]

theorem ltrim_nil_or_head (l : List Char) :
    ltrim l = [] ∨ ∃ c t, ltrim l = c :: t ∧ isGoSpace c = false := by
  induction l with
  | nil => exact Or.inl rfl
  | cons c t ih =>
    by_cases h : isGoSpace c = true
    · simpa [ltrim, List.dropWhile_cons, h] using ih
    · refine Or.inr ⟨c, t, ?_, by simpa using h⟩
      simp [ltrim, List.dropWhile_cons, h]

theorem rtrim_nil_or_concat (l : List Char) :
    rtrim l = [] ∨ ∃ s c, rtrim l = s ++ [c] ∧ isGoSpace c = false := by
  rcases ltrim_nil_or_head l.reverse with h | ⟨c, t, h, hc⟩
  · left
    unfold rtrim
    rw [h]
    rfl
  · right
    refine ⟨t.reverse, c, ?_, hc⟩
    unfold rtrim
    rw [h]
    simp

theorem trimSpace_nil_or_head (l : List Char) :
    trimSpace l = [] ∨ ∃ c t, trimSpace l = c :: t ∧ isGoSpace c = false :=
  ltrim_nil_or_head (rtrim l)

theorem trimSpace_nil_or_concat (l : List Char) :
    trimSpace l = [] ∨ ∃ s c, trimSpace l = s ++ [c] ∧ isGoSpace c = false := by
  rcases rtrim_nil_or_concat l with h | ⟨s, c, h, hc⟩
  · left
    simp [trimSpace, h, ltrim]
  · right
    unfold trimSpace
    rw [h]
    by_cases h2 : (List.dropWhile isGoSpace s).isEmpty
    · exact ⟨[], c, by simp [ltrim, List.dropWhile_append, h2, List.dropWhile_cons, hc], hc⟩
    · refine ⟨List.dropWhile isGoSpace s, c, ?_, hc⟩
      simp [ltrim, List.dropWhile_append, h2]

theorem ltrim_length_le (l : List Char) : (ltrim l).length ≤ l.length := by
  induction l with
  | nil => exact Nat.le_refl _
  | cons c t ih =>
    by_cases h : isGoSpace c = true
    · simp only [ltrim, List.dropWhile_cons, h, if_true]
      exact Nat.le_trans ih (by simp)
    · simp [ltrim, List.dropWhile_cons, h]

theorem rtrim_length_le (l : List Char) : (rtrim l).length ≤ l.length := by
  have := ltrim_length_le l.reverse
  simpa [rtrim] using this

theorem rtrim_rtrim (l : List Char) : rtrim (rtrim l) = rtrim l := by
  rcases rtrim_nil_or_concat l with h | ⟨s, c, h, hc⟩
  · rw [h]
    rfl
  · rw [h, rtrim_concat_of_nonspace hc]

theorem mem_ltrim_of_nonspace {c : Char} (h : isGoSpace c = false) :
    ∀ {l : List Char}, c ∈ l → c ∈ ltrim l := by
  intro l
  induction l with
  | nil => intro hm; cases hm
  | cons a t ih =>
    intro hm
    by_cases ha : isGoSpace a = true
    · have hct : c ∈ t := by
        rcases List.mem_cons.1 hm with rfl | h2
        · rw [ha] at h; cases h
        · exact h2
      simpa [ltrim, List.dropWhile_cons, ha] using ih hct
    · simpa [ltrim, List.dropWhile_cons, ha] using hm

theorem mem_rtrim_of_nonspace {c : Char} (h : isGoSpace c = false) {l : List Char}
    (hm : c ∈ l) : c ∈ rtrim l := by
  have : c ∈ ltrim l.reverse := mem_ltrim_of_nonspace h (by simpa using hm)
  simpa [rtrim] using this

theorem mem_trimSpace_of_nonspace {c : Char} (h : isGoSpace c = false) {l : List Char}
    (hm : c ∈ l) : c ∈ trimSpace l :=
  mem_ltrim_of_nonspace h (mem_rtrim_of_nonspace h hm)

/-! Facts about the replacement scanner. -/

theorem findRepl_some {pairs : List (List Char × List Char)} {s pat rep : List Char}
    (h : findRepl pairs s = some (pat, rep)) : pat ≠ [] ∧ pat.isPrefixOf s = true := by
  induction pairs with
  | nil => cases h
  | cons p rest ih =>
    obtain ⟨p1, p2⟩ := p
    by_cases hc : (!p1.isEmpty && p1.isPrefixOf s) = true
    · rw [findRepl, if_pos hc] at h
      rw [Bool.and_eq_true] at hc
      obtain ⟨h1, h2⟩ := hc
      cases h
      refine ⟨?_, h2⟩
      intro hnil
      subst hnil
      simp at h1
    · rw [findRepl, if_neg hc] at h
      exact ih h

theorem goReplaceFuel_congr (pairs : List (List Char × List Char)) :
    ∀ n m s, s.length ≤ n → s.length ≤ m →
      goReplaceFuel pairs n s = goReplaceFuel pairs m s := by
  intro n
  induction n with
  | zero =>
    intro m s hn _
    have hs : s = [] := List.eq_nil_of_length_eq_zero (Nat.le_zero.1 hn)
    subst hs
    cases m <;> rfl
  | succ n ih =>
    intro m s hn hm
    cases s with
    | nil => cases m <;> rfl
    | cons c rest =>
      cases m with
      | zero => simp at hm
      | succ m =>
        have hn2 : rest.length + 1 ≤ n + 1 := by simpa using hn
        have hm2 : rest.length + 1 ≤ m + 1 := by simpa using hm
        simp only [goReplaceFuel]
        cases hf : findRepl pairs (c :: rest) with
        | none =>
          rw [ih m rest (by omega) (by omega)]
        | some pr =>
          obtain ⟨pat, rep⟩ := pr
          obtain ⟨hne, _⟩ := findRepl_some hf
          have hpat : 1 ≤ pat.length := List.length_pos.2 hne
          have hd : (List.drop pat.length (c :: rest)).length ≤ n := by
            simp only [List.length_drop, List.length_cons]
            omega
          have hd2 : (List.drop pat.length (c :: rest)).length ≤ m := by
            simp only [List.length_drop, List.length_cons]
            omega
          show rep ++ goReplaceFuel pairs n (List.drop pat.length (c :: rest)) =
            rep ++ goReplaceFuel pairs m (List.drop pat.length (c :: rest))
          rw [ih m _ hd hd2]

theorem goReplace_cons (pairs : List (List Char × List Char)) (c : Char)
    (rest : List Char) :
    goReplace pairs (c :: rest) =
      match findRepl pairs (c :: rest) with
      | some (pat, rep) => rep ++ goReplace pairs (List.drop pat.length (c :: rest))
      | none => c :: goReplace pairs rest := by
  show goReplaceFuel pairs (rest.length + 1) (c :: rest) = _
  simp only [goReplaceFuel]
  cases hf : findRepl pairs (c :: rest) with
  | none => rfl
  | some pr =>
    obtain ⟨pat, rep⟩ := pr
    obtain ⟨hne, _⟩ := findRepl_some hf
    have hpat : 1 ≤ pat.length := List.length_pos.2 hne
    show rep ++ goReplaceFuel pairs rest.length (List.drop pat.length (c :: rest)) = _
    congr 1
    exact goReplaceFuel_congr pairs rest.length _ _
      (by simp only [List.length_drop, List.length_cons]; omega)
      (Nat.le_refl _)

theorem goReplace_cons_none {pairs : List (List Char × List Char)} {c : Char}
    {rest : List Char} (h : findRepl pairs (c :: rest) = none) :
    goReplace pairs (c :: rest) = c :: goReplace pairs rest := by
  rw [goReplace_cons, h]

theorem goReplace_cons_some {pairs : List (List Char × List Char)} {c : Char}
    {rest pat rep : List Char} (h : findRepl pairs (c :: rest) = some (pat, rep)) :
    goReplace pairs (c :: rest) =
      rep ++ goReplace pairs (List.drop pat.length (c :: rest)) := by
  rw [goReplace_cons, h]

/-- At a fixed input position, which pattern the scanner selects does not
depend on the body replacement value: either none matches, or a fixed
pattern with a body-independent replacement matches, or `"{body}"` matches
and the replacement is the body itself. -/
theorem findRepl_replacerPairs_cases (fromA toA subject details u : List Char) :
    (∀ b, findRepl (replacerPairs fromA toA subject b details) u = none)
    ∨ (∃ pat rep, pat ≠ [] ∧
        ∀ b, findRepl (replacerPairs fromA toA subject b details) u = some (pat, rep))
    ∨ ((strL "{body}").isPrefixOf u = true ∧
        ∀ b, findRepl (replacerPairs fromA toA subject b details) u =
          some (strL "{body}", b)) := by
  by_cases h1 : (strL "\\n").isPrefixOf u
  · refine Or.inr (Or.inl ⟨strL "\\n", strL "\n", by decide, fun b => ?_⟩)
    simp [findRepl, replacerPairs, h1,
      show (strL "\\n").isEmpty = false from by decide]
  · by_cases h2 : (strL "{from}").isPrefixOf u
    · refine Or.inr (Or.inl ⟨strL "{from}", fromA, by decide, fun b => ?_⟩)
      simp [findRepl, replacerPairs, h1, h2,
        show (strL "\\n").isEmpty = false from by decide,
        show (strL "{from}").isEmpty = false from by decide]
    · by_cases h3 : (strL "{to}").isPrefixOf u
      · refine Or.inr (Or.inl ⟨strL "{to}", toA, by decide, fun b => ?_⟩)
        simp [findRepl, replacerPairs, h1, h2, h3,
          show (strL "\\n").isEmpty = false from by decide,
          show (strL "{from}").isEmpty = false from by decide,
          show (strL "{to}").isEmpty = false from by decide]
      · by_cases h4 : (strL "{subject}").isPrefixOf u
        · refine Or.inr (Or.inl ⟨strL "{subject}", subject, by decide, fun b => ?_⟩)
          simp [findRepl, replacerPairs, h1, h2, h3, h4,
            show (strL "\\n").isEmpty = false from by decide,
            show (strL "{from}").isEmpty = false from by decide,
            show (strL "{to}").isEmpty = false from by decide,
            show (strL "{subject}").isEmpty = false from by decide]
        · by_cases h5 : (strL "{body}").isPrefixOf u
          · refine Or.inr (Or.inr ⟨h5, fun b => ?_⟩)
            simp [findRepl, replacerPairs, h1, h2, h3, h4, h5,
              show (strL "\\n").isEmpty = false from by decide,
              show (strL "{from}").isEmpty = false from by decide,
              show (strL "{to}").isEmpty = false from by decide,
              show (strL "{subject}").isEmpty = false from by decide,
              show (strL "{body}").isEmpty = false from by decide]
          · by_cases h6 : (strL "{attachments_details}").isPrefixOf u
            · refine Or.inr (Or.inl
                ⟨strL "{attachments_details}", details, by decide, fun b => ?_⟩)
              simp [findRepl, replacerPairs, h1, h2, h3, h4, h5, h6,
                show (strL "\\n").isEmpty = false from by decide,
                show (strL "{from}").isEmpty = false from by decide,
                show (strL "{to}").isEmpty = false from by decide,
                show (strL "{subject}").isEmpty = false from by decide,
                show (strL "{body}").isEmpty = false from by decide,
                show (strL "{attachments_details}").isEmpty = false from by decide]
            · refine Or.inl fun b => ?_
              simp [findRepl, replacerPairs, h1, h2, h3, h4, h5, h6]

/-- Dichotomy of the scanner over an arbitrary template: either the result
does not depend on the body replacement at all, or the body occurs
verbatim (contiguously) in the result, for every body value. -/
theorem goReplace_body_structure (fromA toA subject details : List Char) :
    ∀ n u, u.length ≤ n →
      (∀ b1 b2, goReplace (replacerPairs fromA toA subject b1 details) u =
        goReplace (replacerPairs fromA toA subject b2 details) u)
      ∨ (∀ b : List Char, ∃ pre post,
          goReplace (replacerPairs fromA toA subject b details) u =
            pre ++ (b ++ post)) := by
  intro n
  induction n with
  | zero =>
    intro u hu
    have hnil : u = [] := List.eq_nil_of_length_eq_zero (Nat.le_zero.1 hu)
    subst hnil
    exact Or.inl fun b1 b2 => rfl
  | succ n ih =>
    intro u hu
    cases u with
    | nil => exact Or.inl fun b1 b2 => rfl
    | cons c rest =>
      have hu2 : rest.length + 1 ≤ n + 1 := by simpa using hu
      rcases findRepl_replacerPairs_cases fromA toA subject details (c :: rest) with
        hnone | ⟨pat, rep, hne, hsome⟩ | ⟨hpref, hsome⟩
      · rcases ih rest (by omega) with hconst | hinf
        · refine Or.inl fun b1 b2 => ?_
          rw [goReplace_cons_none (hnone b1), goReplace_cons_none (hnone b2),
            hconst b1 b2]
        · refine Or.inr fun b => ?_
          obtain ⟨pre, post, hp⟩ := hinf b
          refine ⟨c :: pre, post, ?_⟩
          rw [goReplace_cons_none (hnone b), hp]
          rfl
      · have hpat : 1 ≤ pat.length := List.length_pos.2 hne
        have hlen : (List.drop pat.length (c :: rest)).length ≤ n := by
          simp only [List.length_drop, List.length_cons]
          omega
        rcases ih _ hlen with hconst | hinf
        · refine Or.inl fun b1 b2 => ?_
          rw [goReplace_cons_some (hsome b1), goReplace_cons_some (hsome b2),
            hconst b1 b2]
        · refine Or.inr fun b => ?_
          obtain ⟨pre, post, hp⟩ := hinf b
          refine ⟨rep ++ pre, post, ?_⟩
          rw [goReplace_cons_some (hsome b), hp, List.append_assoc]
      · refine Or.inr fun b => ?_
        refine ⟨[], goReplace (replacerPairs fromA toA subject b details)
          (List.drop (strL "{body}").length (c :: rest)), ?_⟩
        rw [goReplace_cons_some (hsome b)]
        rfl

/-! Rendering with the default template. -/

/-- Everything the default template puts before the body. -/
def defaultPrefixA (fromA toA subject : List Char) : List Char :=
  strL "From: " ++ fromA ++ strL "\nTo: " ++ toA ++ strL "\nSubject: " ++ subject ++
    strL "\n\n"

/-- Everything the default template puts after the body. -/
def defaultSuffixB (details : List Char) : List Char :=
  strL "\n\n" ++ details

theorem goReplace_defaultTemplate (fromA toA subject body details : List Char) :
    goReplace (replacerPairs fromA toA subject body details) defaultMessageTemplate =
      defaultPrefixA fromA toA subject ++ (body ++ defaultSuffixB details) := by
  have h : goReplace (replacerPairs fromA toA subject body details) defaultMessageTemplate =
      strL "From: " ++ (fromA ++ (strL "\nTo: " ++ (toA ++ (strL "\nSubject: " ++ (subject ++
        (strL "\n\n" ++ (body ++ (strL "\n\n" ++ (details ++ []))))))))) := rfl
  rw [h]
  simp [defaultPrefixA, defaultSuffixB]

theorem ltrim_defaultPrefixA_append (fromA toA subject y : List Char) :
    ltrim (defaultPrefixA fromA toA subject ++ y) = defaultPrefixA fromA toA subject ++ y := by
  have h : defaultPrefixA fromA toA subject ++ y =
      'F' :: (strL "rom: " ++ (fromA ++ (strL "\nTo: " ++ (toA ++ (strL "\nSubject: " ++
        (subject ++ (strL "\n\n" ++ y))))))) := by
    simp only [defaultPrefixA, show strL "From: " = 'F' :: strL "rom: " from rfl]
    simp [List.append_assoc]
  rw [h, ltrim_cons_of_nonspace (by decide), ← h]

theorem renderMessage_default (fromA toA subject details : List Char) {body : List Char}
    (hhead : ∃ c t, body = c :: t ∧ isGoSpace c = false)
    (hlast : ∃ s c, body = s ++ [c] ∧ isGoSpace c = false) :
    renderMessage fromA toA subject body details defaultMessageTemplate =
      defaultPrefixA fromA toA subject ++ (body ++ rtrim (defaultSuffixB details)) := by
  obtain ⟨c, t, hct, hc⟩ := hhead
  obtain ⟨s, c2, hsc, hc2⟩ := hlast
  have hb : body ≠ [] := by rw [hct]; simp
  have hrb : rtrim body = body := by rw [hsc]; exact rtrim_concat_of_nonspace hc2 s
  have h1 : rtrim (goReplace (replacerPairs fromA toA subject body details)
        defaultMessageTemplate)
      = (defaultPrefixA fromA toA subject ++ body) ++ rtrim (defaultSuffixB details) := by
    rw [goReplace_defaultTemplate, ← List.append_assoc, rtrim_append]
    by_cases hB : rtrim (defaultSuffixB details) = []
    · rw [if_pos hB, hB, List.append_nil, rtrim_append, hrb, if_neg hb]
    · rw [if_neg hB]
  show ltrim (rtrim (goReplace (replacerPairs fromA toA subject body details)
      defaultMessageTemplate)) = _
  rw [h1, List.append_assoc]
  exact ltrim_defaultPrefixA_append fromA toA subject
    (body ++ rtrim (defaultSuffixB details))

theorem renderMessage_default_nil_body (fromA toA subject details : List Char) :
    (renderMessage fromA toA subject [] details defaultMessageTemplate).length ≤
      (defaultPrefixA fromA toA subject).length + (rtrim (defaultSuffixB details)).length := by
  show (ltrim (rtrim (goReplace (replacerPairs fromA toA subject [] details)
      defaultMessageTemplate))).length ≤ _
  rw [goReplace_defaultTemplate, List.nil_append, rtrim_append]
  by_cases hB : rtrim (defaultSuffixB details) = []
  · rw [if_pos hB]
    have h1 := ltrim_length_le (rtrim (defaultPrefixA fromA toA subject))
    have h2 := rtrim_length_le (defaultPrefixA fromA toA subject)
    omega
  · rw [if_neg hB]
    have h1 := ltrim_length_le (defaultPrefixA fromA toA subject ++
      rtrim (defaultSuffixB details))
    rw [List.length_append] at h1
    omega

/-! Behaviour of `FormatMessage` with the default template: it never
panics and the truncated rendering stays within the threshold. -/

theorem trimSpace_append_marker {x : List Char}
    (hx : ∃ c t, x = c :: t ∧ isGoSpace c = false) :
    trimSpace (x ++ BodyTruncated) = x ++ BodyTruncated := by
  obtain ⟨c, t, rfl, hc⟩ := hx
  show ltrim (rtrim ((c :: t) ++ BodyTruncated)) = _
  rw [rtrim_append, show rtrim BodyTruncated = BodyTruncated from by decide,
    if_neg (by decide), List.cons_append, ltrim_cons_of_nonspace hc, ← List.cons_append]

theorem formatMessage_default_total (fromA toA subject text details : List Char)
    (cfg : TelegramConfig) (htmpl : cfg.messageTemplate = defaultMessageTemplate) :
    ((fullRender fromA toA subject text details cfg).length ≤ cfg.messageLengthToSendAsFile →
      FormatMessage fromA toA subject text details cfg =
        .ok (fullRender fromA toA subject text details cfg, []))
    ∧ ((fullRender fromA toA subject text details cfg).length > cfg.messageLengthToSendAsFile →
      ∃ trunc, FormatMessage fromA toA subject text details cfg =
          .ok (fullRender fromA toA subject text details cfg, trunc)
        ∧ trunc.length ≤ cfg.messageLengthToSendAsFile
        ∧ (1 ≤ cfg.messageLengthToSendAsFile → trunc ≠ [])) := by
  constructor
  · intro h
    unfold FormatMessage
    rw [if_pos h]
  · intro h
    unfold FormatMessage
    rw [if_neg (by omega)]
    by_cases hE : (emptyRender fromA toA subject details cfg).length ≥
        cfg.messageLengthToSendAsFile
    · rw [if_pos hE]
      refine ⟨_, rfl, ?_, ?_⟩
      · rw [List.length_take]
        omega
      · intro hT
        rw [Ne, List.take_eq_nil_iff]
        push_neg
        refine ⟨by omega, ?_⟩
        intro hnil
        rw [hnil] at h
        simp at h
    · rw [if_neg hE]
      have hbodyE_head : ∃ c t, trimSpace ('.' :: BodyTruncated) = c :: t ∧
          isGoSpace c = false := ⟨'.', BodyTruncated, by decide, by decide⟩
      have hbodyE_last : ∃ s c, trimSpace ('.' :: BodyTruncated) = s ++ [c] ∧
          isGoSpace c = false := ⟨strL ".\n\n[truncated", ']', by decide, by decide⟩
      have h0e : emptyRender fromA toA subject details cfg =
          renderMessage fromA toA subject (trimSpace ('.' :: BodyTruncated)) details
            cfg.messageTemplate := rfl
      have hempty : emptyRender fromA toA subject details cfg =
          defaultPrefixA fromA toA subject ++
            (trimSpace ('.' :: BodyTruncated) ++ rtrim (defaultSuffixB details)) := by
        rw [h0e, htmpl]
        exact renderMessage_default fromA toA subject details hbodyE_head hbodyE_last
      have hemptyLen : (emptyRender fromA toA subject details cfg).length =
          (defaultPrefixA fromA toA subject).length + 14 +
            (rtrim (defaultSuffixB details)).length := by
        rw [hempty]
        simp only [List.length_append,
          show (trimSpace ('.' :: BodyTruncated)).length = 14 from by decide]
        omega
      by_cases hbf : trimSpace text = []
      · exfalso
        have h0 : fullRender fromA toA subject text details cfg =
            renderMessage fromA toA subject (trimSpace text) details
              cfg.messageTemplate := rfl
        rw [h0, hbf, htmpl] at h
        have := renderMessage_default_nil_body fromA toA subject details
        omega
      · rcases trimSpace_nil_or_head text with h9 | hhead
        · exact absurd h9 hbf
        rcases trimSpace_nil_or_concat text with h9 | hlast
        · exact absurd h9 hbf
        obtain ⟨c, t0, hct, hc⟩ := hhead
        have h0f : fullRender fromA toA subject text details cfg =
            renderMessage fromA toA subject (trimSpace text) details
              cfg.messageTemplate := rfl
        have hfull : fullRender fromA toA subject text details cfg =
            defaultPrefixA fromA toA subject ++
              (trimSpace text ++ rtrim (defaultSuffixB details)) := by
          rw [h0f, htmpl]
          exact renderMessage_default fromA toA subject details ⟨c, t0, hct, hc⟩ hlast
        have hfullLen : (fullRender fromA toA subject text details cfg).length =
            (defaultPrefixA fromA toA subject).length + (trimSpace text).length +
              (rtrim (defaultSuffixB details)).length := by
          rw [hfull]
          simp only [List.length_append]
          omega
        have hmle : cfg.messageLengthToSendAsFile -
            (emptyRender fromA toA subject details cfg).length ≤
              (trimSpace text).length := by
          omega
        rw [if_neg (by omega)]
        obtain ⟨k, hk⟩ : ∃ k, cfg.messageLengthToSendAsFile -
            (emptyRender fromA toA subject details cfg).length = k + 1 :=
          ⟨cfg.messageLengthToSendAsFile -
            (emptyRender fromA toA subject details cfg).length - 1, by omega⟩
        have htake : (trimSpace text).take (cfg.messageLengthToSendAsFile -
              (emptyRender fromA toA subject details cfg).length) =
            c :: t0.take k := by
          rw [hk, hct]
          rfl
        have htakeLen : ((trimSpace text).take (cfg.messageLengthToSendAsFile -
              (emptyRender fromA toA subject details cfg).length)).length =
            cfg.messageLengthToSendAsFile -
              (emptyRender fromA toA subject details cfg).length := by
          rw [List.length_take]
          omega
        have htb : trimSpace ((trimSpace text).take (cfg.messageLengthToSendAsFile -
              (emptyRender fromA toA subject details cfg).length) ++ BodyTruncated) =
            (trimSpace text).take (cfg.messageLengthToSendAsFile -
              (emptyRender fromA toA subject details cfg).length) ++ BodyTruncated := by
          rw [htake]
          exact trimSpace_append_marker ⟨c, t0.take k, rfl, hc⟩
        have htbody_head : ∃ c3 t3, trimSpace ((trimSpace text).take
              (cfg.messageLengthToSendAsFile -
                (emptyRender fromA toA subject details cfg).length) ++ BodyTruncated) =
            c3 :: t3 ∧ isGoSpace c3 = false := by
          rw [htb, htake, List.cons_append]
          exact ⟨c, _, rfl, hc⟩
        have htbody_last : ∃ s3 c3, trimSpace ((trimSpace text).take
              (cfg.messageLengthToSendAsFile -
                (emptyRender fromA toA subject details cfg).length) ++ BodyTruncated) =
            s3 ++ [c3] ∧ isGoSpace c3 = false := by
          rw [htb, show BodyTruncated = strL "\n\n[truncated" ++ [']'] from by decide,
            ← List.append_assoc]
          exact ⟨_, ']', rfl, by decide⟩
        have htrunc : truncRender fromA toA subject text details
              (cfg.messageLengthToSendAsFile -
                (emptyRender fromA toA subject details cfg).length) cfg =
            defaultPrefixA fromA toA subject ++
              (((trimSpace text).take (cfg.messageLengthToSendAsFile -
                  (emptyRender fromA toA subject details cfg).length) ++ BodyTruncated) ++
                rtrim (defaultSuffixB details)) := by
          have h0 : truncRender fromA toA subject text details
                (cfg.messageLengthToSendAsFile -
                  (emptyRender fromA toA subject details cfg).length) cfg =
              renderMessage fromA toA subject
                (trimSpace ((trimSpace text).take (cfg.messageLengthToSendAsFile -
                  (emptyRender fromA toA subject details cfg).length) ++ BodyTruncated))
                details cfg.messageTemplate := rfl
          rw [h0, htmpl,
            renderMessage_default fromA toA subject details htbody_head htbody_last, htb]
        have htruncLen : (truncRender fromA toA subject text details
              (cfg.messageLengthToSendAsFile -
                (emptyRender fromA toA subject details cfg).length) cfg).length =
            cfg.messageLengthToSendAsFile - 1 := by
          rw [htrunc]
          simp only [List.length_append,
            show BodyTruncated.length = 13 from by decide, htakeLen]
          omega
        rw [if_neg (by omega)]
        refine ⟨_, rfl, by omega, fun _ => ?_⟩
        intro hnil
        rw [hnil] at htruncLen
        simp at htruncLen
        omega

/-! Claim theorems. -/

/-- C1 (amended): with the default message template, for every from, to,
subject, body text, attachments-details string and configured threshold,
`FormatMessage` returns normally and the truncated rendering's code-point
length never exceeds the threshold — both internal panics are unreachable.
(The original claim, quantified over arbitrary templates, is refuted by
the counterexample below.) -/
theorem c1_default_template_truncation_safe
    (fromA toA subject text details : List Char) (cfg : TelegramConfig)
    (htmpl : cfg.messageTemplate = defaultMessageTemplate) :
    ∃ trunc, FormatMessage fromA toA subject text details cfg =
        .ok (fullRender fromA toA subject text details cfg, trunc)
      ∧ trunc.length ≤ cfg.messageLengthToSendAsFile := by
  obtain ⟨h1, h2⟩ := formatMessage_default_total fromA toA subject text details cfg htmpl
  by_cases h : (fullRender fromA toA subject text details cfg).length ≤
      cfg.messageLengthToSendAsFile
  · exact ⟨[], h1 h, by simp⟩
  · obtain ⟨trunc, he, hle, _⟩ := h2 (by omega)
    exact ⟨trunc, he, hle⟩

/-- C1 witness: the amended theorem instantiated at the default template
with concrete inputs. -/
theorem c1_default_template_truncation_safe_witness :
    ∃ trunc, FormatMessage (strL "a") (strL "b") (strL "c") (strL "hello") (strL "d")
        ⟨defaultMessageTemplate, 1000, 1000, 10⟩ =
        .ok (fullRender (strL "a") (strL "b") (strL "c") (strL "hello") (strL "d")
          ⟨defaultMessageTemplate, 1000, 1000, 10⟩, trunc)
      ∧ trunc.length ≤ 10 :=
  c1_default_template_truncation_safe (strL "a") (strL "b") (strL "c") (strL "hello")
    (strL "d") ⟨defaultMessageTemplate, 1000, 1000, 10⟩ rfl

/-- C1 counterexample: with the template `"{body}{body}"`, threshold 40 and
a 21-character body, the truncation arithmetic overflows and
`FormatMessage` hits the `errUnexpectedTruncation` panic, refuting the
claim that the panic is unreachable for every template. -/
theorem c1_truncation_panic_reachable :
    FormatMessage [] [] [] (strL "aaaaaaaaaaaaaaaaaaaaa") []
      ⟨strL "{body}{body}", 1000000, 1000000, 40⟩ = .error .unexpectedTruncation := by
  rfl

/-- C3: whenever the full rendering's code-point length is at most the
threshold, `FormatEmail` returns it verbatim as the outgoing text with no
truncation and with exactly the classified real attachments. -/
theorem c3_no_truncation_roundtrip (fromA toA subject text details html : List Char)
    (attachments : List FormattedAttachment) (cfg : TelegramConfig)
    (h : (fullRender fromA toA subject text details cfg).length ≤
      cfg.messageLengthToSendAsFile) :
    FormatEmail fromA toA subject text details html attachments cfg =
      .ok ⟨fromA, toA, subject, fullRender fromA toA subject text details cfg, html,
        attachments⟩ := by
  have hm : FormatMessage fromA toA subject text details cfg =
      .ok (fullRender fromA toA subject text details cfg, []) := by
    unfold FormatMessage
    rw [if_pos h]
  unfold FormatEmail
  rw [hm]
  simp

/-- C3 witness: the round-trip theorem at a concrete short message. -/
theorem c3_no_truncation_roundtrip_witness :
    FormatEmail (strL "from@test") (strL "to@test") [] (strL "hi") [] [] []
        ⟨defaultMessageTemplate, 1000, 1000, 4095⟩ =
      .ok ⟨strL "from@test", strL "to@test", [],
        fullRender (strL "from@test") (strL "to@test") [] (strL "hi") []
          ⟨defaultMessageTemplate, 1000, 1000, 4095⟩, [], []⟩ :=
  c3_no_truncation_roundtrip (strL "from@test") (strL "to@test") [] (strL "hi") [] [] []
    ⟨defaultMessageTemplate, 1000, 1000, 4095⟩ (by decide)

/-- C4 (amended): with the default template and a threshold of at least 1,
whenever the full rendering exceeds the threshold in code points but its
byte length fits within the forwarded-attachment size limit, `FormatEmail`
prepends the synthetic `full_message.txt` / `Full message` document whose
content is the complete untruncated rendering, ahead of all real
attachments, and returns a non-empty truncated text of code-point length
at most the threshold.  (The original claim, which also covers threshold 0
and arbitrary templates, is refuted by the counterexample below.) -/
theorem c4_truncation_attachment (fromA toA subject text details html : List Char)
    (attachments : List FormattedAttachment) (cfg : TelegramConfig)
    (htmpl : cfg.messageTemplate = defaultMessageTemplate)
    (hT : 1 ≤ cfg.messageLengthToSendAsFile)
    (hover : (fullRender fromA toA subject text details cfg).length >
      cfg.messageLengthToSendAsFile)
    (hfits : (utf8ByteLength (fullRender fromA toA subject text details cfg) : Int) ≤
      cfg.forwardedAttachmentMaxSize) :
    ∃ trunc, trunc ≠ [] ∧ trunc.length ≤ cfg.messageLengthToSendAsFile ∧
      FormatEmail fromA toA subject text details html attachments cfg =
        .ok ⟨fromA, toA, subject, trunc, html,
          fullMessageAttachment (fullRender fromA toA subject text details cfg) ::
            attachments⟩ := by
  obtain ⟨_, h2⟩ :=
    formatMessage_default_total fromA toA subject text details cfg htmpl
  obtain ⟨trunc, he, hle, hne⟩ := h2 hover
  refine ⟨trunc, hne hT, hle, ?_⟩
  unfold FormatEmail
  rw [he]
  simp only [if_neg (hne hT), if_neg (by omega :
    ¬ (utf8ByteLength (fullRender fromA toA subject text details cfg) : Int) >
      cfg.forwardedAttachmentMaxSize)]

/-- C4 witness: the amended theorem at the test-suite truncation example
(threshold 12, body `"Hello_"` three times). -/
theorem c4_truncation_attachment_witness :
    ∃ trunc, trunc ≠ [] ∧ trunc.length ≤ 12 ∧
      FormatEmail (strL "from@test") (strL "to@test") [] (strL "Hello_Hello_Hello_")
          [] [] [] ⟨defaultMessageTemplate, 1024, 1024, 12⟩ =
        .ok ⟨strL "from@test", strL "to@test", [], trunc, [],
          fullMessageAttachment (fullRender (strL "from@test") (strL "to@test") []
            (strL "Hello_Hello_Hello_") [] ⟨defaultMessageTemplate, 1024, 1024, 12⟩) ::
            []⟩ :=
  c4_truncation_attachment (strL "from@test") (strL "to@test") [] (strL "Hello_Hello_Hello_")
    [] [] [] ⟨defaultMessageTemplate, 1024, 1024, 12⟩ rfl (by decide) (by decide) (by decide)

/-- C4 counterexample: with threshold 0, the full rendering exceeds the
threshold and fits in the size limit, yet `FormatEmail` returns the full
text untruncated with no synthetic attachment, because the degraded
truncation path returns an empty truncated text which `FormatEmail` takes
as its no-truncation sentinel. -/
theorem c4_threshold_zero_counterexample :
    (fullRender [] [] [] (strL "hi") [] ⟨defaultMessageTemplate, 1000, 1000, 0⟩).length > 0
    ∧ (utf8ByteLength (fullRender [] [] [] (strL "hi") []
        ⟨defaultMessageTemplate, 1000, 1000, 0⟩) : Int) ≤ 1000
    ∧ FormatEmail [] [] [] (strL "hi") [] [] [] ⟨defaultMessageTemplate, 1000, 1000, 0⟩ =
      .ok ⟨[], [], [], fullRender [] [] [] (strL "hi") []
        ⟨defaultMessageTemplate, 1000, 1000, 0⟩, [], []⟩ := by
  refine ⟨by decide, by decide, ?_⟩
  rfl

/-- C5 (amended): with the default template and a threshold of at least 1,
`FormatEmail` fails — and fails with the `errMessageTooLarge` size error —
exactly when the full rendering exceeds the threshold in code points and
its byte length exceeds the forwarded-attachment size limit; the panic
error cases are unreachable, so this is the only formatting-time failure
after successful parsing.  (The original claim, which also covers
threshold 0 and arbitrary templates, is refuted by the counterexample
below.) -/
theorem c5_size_error_iff (fromA toA subject text details html : List Char)
    (attachments : List FormattedAttachment) (cfg : TelegramConfig)
    (htmpl : cfg.messageTemplate = defaultMessageTemplate)
    (hT : 1 ≤ cfg.messageLengthToSendAsFile) :
    ((∃ e, FormatEmail fromA toA subject text details html attachments cfg = .error e) ↔
      ((fullRender fromA toA subject text details cfg).length >
          cfg.messageLengthToSendAsFile ∧
        (utf8ByteLength (fullRender fromA toA subject text details cfg) : Int) >
          cfg.forwardedAttachmentMaxSize))
    ∧ (∀ e, FormatEmail fromA toA subject text details html attachments cfg = .error e →
        e = .messageTooLarge) := by
  obtain ⟨h1, h2⟩ :=
    formatMessage_default_total fromA toA subject text details cfg htmpl
  by_cases hover : (fullRender fromA toA subject text details cfg).length ≤
      cfg.messageLengthToSendAsFile
  · have hfe : FormatEmail fromA toA subject text details html attachments cfg =
        .ok ⟨fromA, toA, subject, fullRender fromA toA subject text details cfg, html,
          attachments⟩ := by
      unfold FormatEmail
      rw [h1 hover]
      simp
    rw [hfe]
    constructor
    · constructor
      · rintro ⟨e, he⟩
        cases he
      · intro hcontra
        omega
    · intro e he
      cases he
  · obtain ⟨trunc, he, hle, hne⟩ := h2 (by omega)
    by_cases hbytes : (utf8ByteLength (fullRender fromA toA subject text details cfg) :
        Int) > cfg.forwardedAttachmentMaxSize
    · have hfe : FormatEmail fromA toA subject text details html attachments cfg =
          .error .messageTooLarge := by
        unfold FormatEmail
        rw [he]
        simp only [if_neg (hne hT), if_pos hbytes]
      rw [hfe]
      constructor
      · constructor
        · intro _
          exact ⟨by omega, hbytes⟩
        · intro _
          exact ⟨.messageTooLarge, rfl⟩
      · intro e he2
        cases he2
        rfl
    · have hfe : FormatEmail fromA toA subject text details html attachments cfg =
          .ok ⟨fromA, toA, subject, trunc, html,
            fullMessageAttachment (fullRender fromA toA subject text details cfg) ::
              attachments⟩ := by
        unfold FormatEmail
        rw [he]
        simp only [if_neg (hne hT), if_neg hbytes]
      rw [hfe]
      constructor
      · constructor
        · rintro ⟨e, he2⟩
          cases he2
        · intro hcontra
          exact absurd hcontra.2 hbytes
      · intro e he2
        cases he2

/-- C5 witness: the size-error characterization at a concrete oversized
message (threshold 12, size limit 3 bytes). -/
theorem c5_size_error_iff_witness :
    ((∃ e, FormatEmail (strL "from@test") (strL "to@test") [] (strL "Hello_Hello_Hello_")
        [] [] [] ⟨defaultMessageTemplate, 3, 3, 12⟩ = .error e) ↔
      ((fullRender (strL "from@test") (strL "to@test") [] (strL "Hello_Hello_Hello_") []
          ⟨defaultMessageTemplate, 3, 3, 12⟩).length > 12 ∧
        (utf8ByteLength (fullRender (strL "from@test") (strL "to@test") []
          (strL "Hello_Hello_Hello_") [] ⟨defaultMessageTemplate, 3, 3, 12⟩) : Int) > 3))
    ∧ (∀ e, FormatEmail (strL "from@test") (strL "to@test") [] (strL "Hello_Hello_Hello_")
        [] [] [] ⟨defaultMessageTemplate, 3, 3, 12⟩ = .error e → e = .messageTooLarge) :=
  c5_size_error_iff (strL "from@test") (strL "to@test") [] (strL "Hello_Hello_Hello_")
    [] [] [] ⟨defaultMessageTemplate, 3, 3, 12⟩ rfl (by decide)

/-- C5 counterexample: with threshold 0 the full rendering exceeds both
the threshold and the size limit, yet `FormatEmail` succeeds and sends the
full text, because the degraded truncation path returns the empty
no-truncation sentinel before the size check is ever reached. -/
theorem c5_threshold_zero_counterexample :
    (fullRender [] [] [] (strL "hi") [] ⟨defaultMessageTemplate, 1, 1, 0⟩).length > 0
    ∧ (utf8ByteLength (fullRender [] [] [] (strL "hi") []
        ⟨defaultMessageTemplate, 1, 1, 0⟩) : Int) > 1
    ∧ FormatEmail [] [] [] (strL "hi") [] [] [] ⟨defaultMessageTemplate, 1, 1, 0⟩ =
      .ok ⟨[], [], [], fullRender [] [] [] (strL "hi") []
        ⟨defaultMessageTemplate, 1, 1, 0⟩, [], []⟩ := by
  refine ⟨by decide, by decide, ?_⟩
  rfl

set_option maxRecDepth 40000

/-- Go `strings.Repeat` on rune lists, used to state the spec's example
body of 360 characters. -/
def repeatList (l : List Char) : Nat → List Char
  | 0 => []
  | n + 1 => l ++ repeatList l n

/-- C6: when the fixed-overhead rendering already reaches the threshold
(and the full rendering is over the limit, so the truncation path is
taken), `FormatMessage` returns the first `threshold` code points of the
full rendering as the truncated representation; and at the spec's
concrete example — default template, `from@test` / `to@test`, empty
subject, body of 360 characters (`"Hello_"` sixty times), threshold 12 —
the outgoing text is exactly `"From: from@t"` (12 code points) and a
`full_message.txt` attachment carrying the complete original rendering is
produced. -/
theorem c6_degraded_truncation :
    (∀ (fromA toA subject text details : List Char) (cfg : TelegramConfig),
      (fullRender fromA toA subject text details cfg).length >
          cfg.messageLengthToSendAsFile →
      (emptyRender fromA toA subject details cfg).length ≥
          cfg.messageLengthToSendAsFile →
      FormatMessage fromA toA subject text details cfg =
        .ok (fullRender fromA toA subject text details cfg,
          (fullRender fromA toA subject text details cfg).take
            cfg.messageLengthToSendAsFile))
    ∧ FormatEmail (strL "from@test") (strL "to@test") []
        (repeatList (strL "Hello_") 60) [] [] []
        ⟨defaultMessageTemplate, 1024, 1024, 12⟩ =
      .ok ⟨strL "from@test", strL "to@test", [], strL "From: from@t", [],
        [⟨strL "full_message.txt", strL "Full message",
          strL "From: from@test\nTo: to@test\nSubject: \n\n" ++ repeatList (strL "Hello_") 60,
          AttachmentTypeDocument⟩]⟩ := by
  constructor
  · intro fromA toA subject text details cfg h1 h2
    unfold FormatMessage
    rw [if_neg (by omega), if_pos h2]
  · rfl

/-- C6 witness: the degraded-mode statement applied at the concrete
spec example. -/
theorem c6_degraded_truncation_witness :
    FormatMessage (strL "from@test") (strL "to@test") []
        (repeatList (strL "Hello_") 60) [] ⟨defaultMessageTemplate, 1024, 1024, 12⟩ =
      .ok (fullRender (strL "from@test") (strL "to@test") []
          (repeatList (strL "Hello_") 60) [] ⟨defaultMessageTemplate, 1024, 1024, 12⟩,
        (fullRender (strL "from@test") (strL "to@test") []
          (repeatList (strL "Hello_") 60) [] ⟨defaultMessageTemplate, 1024, 1024, 12⟩).take
          12) :=
  c6_degraded_truncation.1 (strL "from@test") (strL "to@test") []
    (repeatList (strL "Hello_") 60) [] ⟨defaultMessageTemplate, 1024, 1024, 12⟩
    (by decide) (by decide)

/-- C10: for every configuration with threshold at least 1 and every
input (any template), `FormatMessage` returns an empty truncated text iff
the full rendering's code-point length is at most the threshold — so the
empty string is a sound no-truncation sentinel for `FormatEmail`; and for
threshold 0 the equivalence fails: the degraded path returns an empty
truncation for a non-empty over-limit rendering, which `FormatEmail` then
treats as untruncated. -/
theorem c10_empty_truncation_sentinel :
    (∀ (fromA toA subject text details : List Char) (cfg : TelegramConfig),
      1 ≤ cfg.messageLengthToSendAsFile →
      ((∃ full, FormatMessage fromA toA subject text details cfg = .ok (full, []))
        ↔ (fullRender fromA toA subject text details cfg).length ≤
            cfg.messageLengthToSendAsFile))
    ∧ ((fullRender [] [] [] (strL "hi") [] ⟨defaultMessageTemplate, 1000, 1000, 0⟩).length
          > 0
      ∧ FormatMessage [] [] [] (strL "hi") [] ⟨defaultMessageTemplate, 1000, 1000, 0⟩ =
          .ok (fullRender [] [] [] (strL "hi") []
            ⟨defaultMessageTemplate, 1000, 1000, 0⟩, [])
      ∧ FormatEmail [] [] [] (strL "hi") [] [] [] ⟨defaultMessageTemplate, 1000, 1000, 0⟩ =
          .ok ⟨[], [], [], fullRender [] [] [] (strL "hi") []
            ⟨defaultMessageTemplate, 1000, 1000, 0⟩, [], []⟩) := by
  constructor
  · intro fromA toA subject text details cfg hT
    constructor
    · rintro ⟨full, hfm⟩
      by_contra hgt
      push_neg at hgt
      unfold FormatMessage at hfm
      rw [if_neg (by omega)] at hfm
      by_cases hE : (emptyRender fromA toA subject details cfg).length ≥
          cfg.messageLengthToSendAsFile
      · rw [if_pos hE] at hfm
        simp only [Except.ok.injEq, Prod.mk.injEq] at hfm
        have htake := hfm.2
        rw [List.take_eq_nil_iff] at htake
        rcases htake with h0 | h0
        · omega
        · rw [h0] at hgt
          simp at hgt
      · rw [if_neg hE] at hfm
        by_cases hslice : cfg.messageLengthToSendAsFile -
            (emptyRender fromA toA subject details cfg).length > (trimSpace text).length
        · rw [if_pos hslice] at hfm
          cases hfm
        · rw [if_neg hslice] at hfm
          by_cases hpanic : (truncRender fromA toA subject text details
              (cfg.messageLengthToSendAsFile -
                (emptyRender fromA toA subject details cfg).length) cfg).length >
              cfg.messageLengthToSendAsFile
          · rw [if_pos hpanic] at hfm
            cases hfm
          · rw [if_neg hpanic] at hfm
            simp only [Except.ok.injEq, Prod.mk.injEq] at hfm
            have htr : truncRender fromA toA subject text details
                (cfg.messageLengthToSendAsFile -
                  (emptyRender fromA toA subject details cfg).length) cfg = [] := hfm.2
            have htr2 : trimSpace (goReplace (replacerPairs fromA toA subject
                (trimSpace ((trimSpace text).take (cfg.messageLengthToSendAsFile -
                  (emptyRender fromA toA subject details cfg).length) ++ BodyTruncated))
                details) cfg.messageTemplate) = [] := htr
            have hmem : ']' ∈ (trimSpace text).take (cfg.messageLengthToSendAsFile -
                (emptyRender fromA toA subject details cfg).length) ++ BodyTruncated :=
              List.mem_append_right _ (by decide)
            have hmem2 : ']' ∈ trimSpace ((trimSpace text).take
                (cfg.messageLengthToSendAsFile -
                  (emptyRender fromA toA subject details cfg).length) ++ BodyTruncated) :=
              mem_trimSpace_of_nonspace (by decide) hmem
            rcases goReplace_body_structure fromA toA subject details
                cfg.messageTemplate.length cfg.messageTemplate (Nat.le_refl _) with
              hconst | hinf
            · have heq : fullRender fromA toA subject text details cfg =
                  emptyRender fromA toA subject details cfg := by
                show trimSpace (goReplace (replacerPairs fromA toA subject
                    (trimSpace text) details) cfg.messageTemplate) =
                  trimSpace (goReplace (replacerPairs fromA toA subject
                    (trimSpace ('.' :: BodyTruncated)) details) cfg.messageTemplate)
                rw [hconst (trimSpace text) (trimSpace ('.' :: BodyTruncated))]
              have := congrArg List.length heq
              omega
            · obtain ⟨pre, post, hp⟩ := hinf (trimSpace ((trimSpace text).take
                (cfg.messageLengthToSendAsFile -
                  (emptyRender fromA toA subject details cfg).length) ++ BodyTruncated))
              have hmem3 : ']' ∈ goReplace (replacerPairs fromA toA subject
                  (trimSpace ((trimSpace text).take (cfg.messageLengthToSendAsFile -
                    (emptyRender fromA toA subject details cfg).length) ++ BodyTruncated))
                  details) cfg.messageTemplate := by
                rw [hp]
                exact List.mem_append_right _ (List.mem_append_left _ hmem2)
              have hmem4 := mem_trimSpace_of_nonspace (by decide) hmem3
              rw [htr2] at hmem4
              cases hmem4
    · intro h
      refine ⟨fullRender fromA toA subject text details cfg, ?_⟩
      unfold FormatMessage
      rw [if_pos h]
  · exact ⟨by decide, by rfl, by rfl⟩

/-- C10 witness: the sentinel equivalence applied at threshold 100 with a
short message. -/
theorem c10_empty_truncation_sentinel_witness :
    (∃ full, FormatMessage [] [] [] (strL "hi") []
        ⟨defaultMessageTemplate, 1000, 1000, 100⟩ = .ok (full, []))
      ↔ (fullRender [] [] [] (strL "hi") []
          ⟨defaultMessageTemplate, 1000, 1000, 100⟩).length ≤ 100 :=
  c10_empty_truncation_sentinel.1 [] [] [] (strL "hi") []
    ⟨defaultMessageTemplate, 1000, 1000, 100⟩ (by decide)

/-- C2: rule evaluation semantics — a rule with empty conditions never
matches; `"all"` rules match iff every condition matches; `"any"` rules
match iff some condition matches; and `checkFilterRules` reports the
first matching rule in load order (first-match-wins), with no-match for
the empty (or nil) rule set or when no rule matches. -/
theorem c2_rule_evaluation_semantics :
    (∀ (rule : FilterRule) (fromA toA subject body html : List Char),
      rule.Conditions = [] → evaluateRule rule fromA toA subject body html = false)
    ∧ (∀ (rule : FilterRule) (fromA toA subject body html : List Char),
      rule.Match = strL "all" →
        (evaluateRule rule fromA toA subject body html = true ↔
          rule.Conditions ≠ [] ∧ ∀ cond ∈ rule.Conditions,
            evaluateCondition cond fromA toA subject body html = true))
    ∧ (∀ (rule : FilterRule) (fromA toA subject body html : List Char),
      rule.Match = strL "any" →
        (evaluateRule rule fromA toA subject body html = true ↔
          ∃ cond ∈ rule.Conditions,
            evaluateCondition cond fromA toA subject body html = true))
    ∧ (∀ (filterRules : List FilterRule) (fromA toA subject body html : List Char),
      checkFilterRules filterRules fromA toA subject body html =
        match filterRules.find?
            (fun rule => evaluateRule rule fromA toA subject body html) with
        | some rule => (true, rule.name)
        | none => (false, [])) := by
  refine ⟨?_, ?_, ?_, ?_⟩
  · intro rule fromA toA subject body html h
    simp [evaluateRule, h]
  · intro rule fromA toA subject body html h
    by_cases hc : rule.Conditions = []
    · simp [evaluateRule, hc]
    · have hne : rule.Conditions.isEmpty = false := by
        simpa [List.isEmpty_iff] using hc
      simp [evaluateRule, hne, h, show ¬ strL "all" = strL "any" from by decide,
        List.all_eq_true, hc]
  · intro rule fromA toA subject body html h
    by_cases hc : rule.Conditions = []
    · simp [evaluateRule, hc]
    · have hne : rule.Conditions.isEmpty = false := by
        simpa [List.isEmpty_iff] using hc
      simp [evaluateRule, hne, h, List.any_eq_true]
  · intro filterRules fromA toA subject body html
    induction filterRules with
    | nil => rfl
    | cons rule rest ih =>
      unfold checkFilterRules
      by_cases h : evaluateRule rule fromA toA subject body html = true
      · rw [if_pos h,
          List.find?_cons_of_pos (p := fun r => evaluateRule r fromA toA subject body html)
            rest h]
      · rw [if_neg h,
          List.find?_cons_of_neg (p := fun r => evaluateRule r fromA toA subject body html)
            rest (by simpa using h), ih]

/-- C2 witness: first-match-wins at a concrete two-rule set where both
rules match — the first rule's name is reported. -/
theorem c2_rule_evaluation_semantics_witness :
    checkFilterRules
        [⟨strL "first", strL "all", [⟨strL "subject", strL "spam", fun _ => true⟩]⟩,
         ⟨strL "second", strL "any", [⟨strL "subject", strL "spam", fun _ => true⟩]⟩]
        (strL "a") (strL "b") (strL "c") (strL "d") (strL "e") =
      match ([⟨strL "first", strL "all", [⟨strL "subject", strL "spam", fun _ => true⟩]⟩,
         ⟨strL "second", strL "any", [⟨strL "subject", strL "spam", fun _ => true⟩]⟩] :
           List FilterRule).find?
          (fun rule => evaluateRule rule (strL "a") (strL "b") (strL "c") (strL "d")
            (strL "e")) with
      | some rule => (true, rule.name)
      | none => (false, []) :=
  c2_rule_evaluation_semantics.2.2.2
    [⟨strL "first", strL "all", [⟨strL "subject", strL "spam", fun _ => true⟩]⟩,
     ⟨strL "second", strL "any", [⟨strL "subject", strL "spam", fun _ => true⟩]⟩]
    (strL "a") (strL "b") (strL "c") (strL "d") (strL "e")

/-- Helper: a list is always a prefix (in the boolean sense) of itself
followed by anything. -/
theorem isPrefixOf_append_self (x y : List Char) : x.isPrefixOf (x ++ y) = true := by
  induction x with
  | nil => simp [List.isPrefixOf]
  | cons c t ih => simp [List.isPrefixOf, ih]

/-- C7: the loader makes every compiled pattern case-insensitive — the
normalized pattern always starts with the inline `(?i)` directive (and is
left untouched when the author already wrote it) — and the modelled
engine's matching of such patterns is invariant under re-casing of the
input and of the literal, so no compiled condition matches
case-sensitively; in particular `spam` matches `SPAM MESSAGE`,
`SpAm MeSsAgE` and `spam message`. -/
theorem c7_case_insensitive_matching :
    (∀ pattern : List Char, (strL "(?i)").isPrefixOf (normalizePattern pattern) = true)
    ∧ (∀ pattern : List Char, (strL "(?i)").isPrefixOf pattern = true →
        normalizePattern pattern = pattern)
    ∧ (∀ literal s1 s2 : List Char, s1.map asciiFold = s2.map asciiFold →
        regexpIMatch literal s1 = regexpIMatch literal s2)
    ∧ (∀ lit1 lit2 s : List Char, lit1.map asciiFold = lit2.map asciiFold →
        regexpIMatch lit1 s = regexpIMatch lit2 s)
    ∧ (regexpIMatch (strL "spam") (strL "SPAM MESSAGE") = true
      ∧ regexpIMatch (strL "spam") (strL "SpAm MeSsAgE") = true
      ∧ regexpIMatch (strL "spam") (strL "spam message") = true) := by
  refine ⟨?_, ?_, ?_, ?_, by decide, by decide, by decide⟩
  · intro pattern
    unfold normalizePattern
    by_cases h : (strL "(?i)").isPrefixOf pattern = true
    · rw [if_pos h]
      exact h
    · rw [if_neg h]
      exact isPrefixOf_append_self (strL "(?i)") pattern
  · intro pattern h
    unfold normalizePattern
    rw [if_pos h]
  · intro literal s1 s2 h
    unfold regexpIMatch
    rw [h]
  · intro lit1 lit2 s h
    unfold regexpIMatch
    rw [h]

/-- C7 witness: normalization injects the directive into a plain literal
pattern. -/
theorem c7_case_insensitive_matching_witness :
    normalizePattern (strL "(?i)spam") = strL "(?i)spam" :=
  c7_case_insensitive_matching.2.1 (strL "(?i)spam") (by decide)

/-- Condition compilation fails exactly when some condition has an
unrecognized field or a pattern that does not compile. -/
theorem compileConditions_error_iff (compile : List Char → Option (List Char → Bool))
    (name : List Char) (conds : List RawCondition) :
    (∃ e, compileConditions compile name conds = .error e) ↔
      ∃ cond ∈ conds, isValidFilterField cond.field = false ∨
        compile (normalizePattern cond.pattern) = none := by
  induction conds with
  | nil =>
    constructor
    · rintro ⟨e, he⟩
      simp [compileConditions] at he
    · rintro ⟨cond, hmem, _⟩
      cases hmem
  | cons cond rest ih =>
    constructor
    · rintro ⟨e, he⟩
      by_cases hf : isValidFilterField cond.field = false
      · exact ⟨cond, List.mem_cons_self cond rest, Or.inl hf⟩
      · cases hcp : compile (normalizePattern cond.pattern) with
        | none => exact ⟨cond, List.mem_cons_self cond rest, Or.inr hcp⟩
        | some rx =>
          unfold compileConditions at he
          rw [if_neg hf, hcp] at he
          cases hrest : compileConditions compile name rest with
          | ok cs =>
            rw [hrest] at he
            cases he
          | error e2 =>
            obtain ⟨c2, hc2mem, hbad⟩ := ih.1 ⟨e2, hrest⟩
            exact ⟨c2, List.mem_cons_of_mem _ hc2mem, hbad⟩
    · rintro ⟨c2, hmem, hbad⟩
      rcases List.mem_cons.1 hmem with rfl | hmem2
      · unfold compileConditions
        rcases hbad with hf | hcp
        · rw [if_pos hf]
          exact ⟨_, rfl⟩
        · by_cases hf : isValidFilterField c2.field = false
          · rw [if_pos hf]
            exact ⟨_, rfl⟩
          · rw [if_neg hf, hcp]
            exact ⟨_, rfl⟩
      · unfold compileConditions
        by_cases hf : isValidFilterField cond.field = false
        · rw [if_pos hf]
          exact ⟨_, rfl⟩
        · rw [if_neg hf]
          cases hcp : compile (normalizePattern cond.pattern) with
          | none => exact ⟨_, rfl⟩
          | some rx =>
            obtain ⟨e2, he2⟩ := ih.2 ⟨c2, hmem2, hbad⟩
            rw [he2]
            exact ⟨e2, rfl⟩

/-- Rule compilation fails exactly when the defaulted match mode is
invalid or some condition is bad. -/
theorem compileRule_error_iff (compile : List Char → Option (List Char → Bool))
    (rule : RawFilterRule) :
    (∃ e, compileRule compile rule = .error e) ↔
      (defaultedMatch rule ≠ strL "all" ∧ defaultedMatch rule ≠ strL "any")
      ∨ ∃ cond ∈ rule.conditions, isValidFilterField cond.field = false ∨
          compile (normalizePattern cond.pattern) = none := by
  unfold compileRule
  by_cases hm : defaultedMatch rule ≠ strL "all" ∧ defaultedMatch rule ≠ strL "any"
  · rw [if_pos hm]
    constructor
    · intro _
      exact Or.inl hm
    · intro _
      exact ⟨_, rfl⟩
  · rw [if_neg hm]
    cases hcc : compileConditions compile rule.name rule.conditions with
    | ok cs =>
      constructor
      · rintro ⟨e, he⟩
        cases he
      · rintro (h | hbad)
        · exact absurd h hm
        · obtain ⟨e, he⟩ := (compileConditions_error_iff compile rule.name
            rule.conditions).2 hbad
          rw [hcc] at he
          cases he
    | error e2 =>
      constructor
      · intro _
        exact Or.inr ((compileConditions_error_iff compile rule.name
          rule.conditions).1 ⟨e2, hcc⟩)
      · intro _
        exact ⟨e2, rfl⟩

/-- Whole-list compilation fails exactly when some rule is bad. -/
theorem compileRules_error_iff (compile : List Char → Option (List Char → Bool))
    (rules : List RawFilterRule) :
    (∃ e, compileRules compile rules = .error e) ↔
      ∃ rule ∈ rules,
        (defaultedMatch rule ≠ strL "all" ∧ defaultedMatch rule ≠ strL "any")
        ∨ ∃ cond ∈ rule.conditions, isValidFilterField cond.field = false ∨
            compile (normalizePattern cond.pattern) = none := by
  induction rules with
  | nil =>
    constructor
    · rintro ⟨e, he⟩
      simp [compileRules] at he
    · rintro ⟨rule, hmem, _⟩
      cases hmem
  | cons rule rest ih =>
    constructor
    · rintro ⟨e, he⟩
      cases hcr : compileRule compile rule with
      | error e2 =>
        exact ⟨rule, List.mem_cons_self rule rest,
          (compileRule_error_iff compile rule).1 ⟨e2, hcr⟩⟩
      | ok cr =>
        unfold compileRules at he
        rw [hcr] at he
        cases hrest : compileRules compile rest with
        | ok rs =>
          rw [hrest] at he
          cases he
        | error e2 =>
          obtain ⟨r2, hmem, hbad⟩ := ih.1 ⟨e2, hrest⟩
          exact ⟨r2, List.mem_cons_of_mem _ hmem, hbad⟩
    · rintro ⟨r2, hmem, hbad⟩
      unfold compileRules
      rcases List.mem_cons.1 hmem with rfl | hmem2
      · obtain ⟨e, he⟩ := (compileRule_error_iff compile r2).2 hbad
        rw [he]
        exact ⟨e, rfl⟩
      · cases hcr : compileRule compile rule with
        | error e2 => exact ⟨e2, rfl⟩
        | ok cr =>
          obtain ⟨e, he⟩ := ih.2 ⟨r2, hmem2, hbad⟩
          rw [he]
          exact ⟨e, rfl⟩

/-- C8: `loadFilterRules` returns an error exactly when the source is
unreadable or unparsable, some rule's defaulted match mode is neither
`"all"` nor `"any"`, some condition's field is unrecognized, or some
pattern fails to compile; and every failure (indeed every outcome) leaves
the active rule set independent of the previously active rules — a failed
load leaves it empty, never partially populated. -/
theorem c8_load_error_semantics :
    (∀ (compile : List Char → Option (List Char → Bool)) prev,
      loadFilterRules compile .emptyFilename prev = ([], none))
    ∧ (∀ (compile : List Char → Option (List Char → Bool)) prev,
      loadFilterRules compile .readError prev = ([], some .readFail))
    ∧ (∀ (compile : List Char → Option (List Char → Bool)) prev,
      loadFilterRules compile .parseError prev = ([], some .parseFail))
    ∧ (∀ (compile : List Char → Option (List Char → Bool)) rules prev,
      ((loadFilterRules compile (.parsed rules) prev).2 ≠ none ↔
        ∃ rule ∈ rules,
          (defaultedMatch rule ≠ strL "all" ∧ defaultedMatch rule ≠ strL "any")
          ∨ ∃ cond ∈ rule.conditions, isValidFilterField cond.field = false ∨
              compile (normalizePattern cond.pattern) = none))
    ∧ (∀ (compile : List Char → Option (List Char → Bool)) src prev,
      (loadFilterRules compile src prev).2 ≠ none →
        (loadFilterRules compile src prev).1 = []) := by
  refine ⟨fun _ _ => rfl, fun _ _ => rfl, fun _ _ => rfl, ?_, ?_⟩
  · intro compile rules prev
    have hv : loadFilterRules compile (.parsed rules) prev =
        (match compileRules compile rules with
         | .ok compiled => (compiled, none)
         | .error e => ([], some e)) := rfl
    rw [hv]
    cases hcr : compileRules compile rules with
    | ok rs =>
      constructor
      · intro hcontra
        exact absurd rfl hcontra
      · intro hbad
        obtain ⟨e, he⟩ := (compileRules_error_iff compile rules).2 hbad
        rw [hcr] at he
        cases he
    | error e =>
      constructor
      · intro _
        exact (compileRules_error_iff compile rules).1 ⟨e, hcr⟩
      · intro _
        simp
  · intro compile src prev h
    cases src with
    | emptyFilename => rfl
    | readError => rfl
    | parseError => rfl
    | parsed rules =>
      have hv : loadFilterRules compile (.parsed rules) prev =
          (match compileRules compile rules with
           | .ok compiled => (compiled, none)
           | .error e => ([], some e)) := rfl
      rw [hv] at h ⊢
      cases hcr : compileRules compile rules with
      | ok rs =>
        rw [hcr] at h
        exact absurd rfl h
      | error e =>
        rfl

/-- C8 witness: a one-rule set whose match mode is invalid fails to load
and leaves the empty rule set active for any previously loaded rules. -/
theorem c8_load_error_semantics_witness :
    ((loadFilterRules (fun _ => some fun _ => false)
        (.parsed [⟨strL "bad", strL "most", []⟩])
        [⟨strL "old", strL "all", []⟩]).2 ≠ none ↔
      ∃ rule ∈ [(⟨strL "bad", strL "most", []⟩ : RawFilterRule)],
        (defaultedMatch rule ≠ strL "all" ∧ defaultedMatch rule ≠ strL "any")
        ∨ ∃ cond ∈ rule.conditions, isValidFilterField cond.field = false ∨
            (fun _ => some fun _ => false : List Char → Option (List Char → Bool))
              (normalizePattern cond.pattern) = none) :=
  c8_load_error_semantics.2.2.2.1 (fun _ => some fun _ => false)
    [⟨strL "bad", strL "most", []⟩] [⟨strL "old", strL "all", []⟩]

/-- C9: part classification — with the effective content type resolved by
`GuessContentType` (falling back to the extension table only for
`application/octet-stream`), a part becomes a photo iff the effective type
is on the image allow-list (`image/jpeg` / `image/png` exactly) and its
byte length is within the photo ceiling; otherwise a document iff within
the document ceiling; otherwise it is discarded yet still described with
action word `"discarded"` in the details line; and a ceiling of zero
admits only empty content to its category. -/
theorem c9_part_classification :
    (∀ (typeByExtension : List Char → List Char) (part : MimePart)
        (cfg : TelegramConfig),
      ((∃ att, (processPart typeByExtension part cfg).1 = some att ∧
          att.FileType = AttachmentTypePhoto) ↔
        (FileIsImage (GuessContentType typeByExtension part.contentType part.fileName) =
            true ∧
          (part.content.length : Int) ≤ cfg.forwardedAttachmentMaxPhotoSize))
      ∧ ((∃ att, (processPart typeByExtension part cfg).1 = some att ∧
          att.FileType = AttachmentTypeDocument) ↔
        (¬(FileIsImage (GuessContentType typeByExtension part.contentType
              part.fileName) = true ∧
            (part.content.length : Int) ≤ cfg.forwardedAttachmentMaxPhotoSize) ∧
          (part.content.length : Int) ≤ cfg.forwardedAttachmentMaxSize))
      ∧ ((processPart typeByExtension part cfg).1 = none ↔
        (¬(FileIsImage (GuessContentType typeByExtension part.contentType
              part.fileName) = true ∧
            (part.content.length : Int) ≤ cfg.forwardedAttachmentMaxPhotoSize) ∧
          ¬(part.content.length : Int) ≤ cfg.forwardedAttachmentMaxSize))
      ∧ ((processPart typeByExtension part cfg).2 = strL "discarded" ↔
          (processPart typeByExtension part cfg).1 = none)
      ∧ (cfg.forwardedAttachmentMaxPhotoSize = 0 →
          (∃ att, (processPart typeByExtension part cfg).1 = some att ∧
            att.FileType = AttachmentTypePhoto) → part.content.length = 0)
      ∧ (cfg.forwardedAttachmentMaxSize = 0 →
          (∃ att, (processPart typeByExtension part cfg).1 = some att ∧
            att.FileType = AttachmentTypeDocument) → part.content.length = 0))
    ∧ (∀ contentType : List Char, FileIsImage contentType = true ↔
        contentType = strL "image/jpeg" ∨ contentType = strL "image/png") := by
  constructor
  · intro typeByExtension part cfg
    by_cases h1 : FileIsImage (GuessContentType typeByExtension part.contentType
        part.fileName) = true
    · by_cases h2 : (part.content.length : Int) ≤ cfg.forwardedAttachmentMaxPhotoSize
      · have hpp : processPart typeByExtension part cfg =
            (some ⟨part.fileName, part.fileName, part.content, AttachmentTypePhoto⟩,
             strL "sending...") := by
          unfold processPart
          rw [if_pos (by simp [h1, h2])]
        rw [hpp]
        refine ⟨?_, ?_, ?_, ?_, ?_, ?_⟩
        · simp [h1, h2]
        · simp [h1, h2, AttachmentTypePhoto, AttachmentTypeDocument]
        · simp [h1, h2]
        · simp [show strL "sending..." ≠ strL "discarded" from by decide]
        · intro h0 _
          omega
        · intro h0 hdoc
          obtain ⟨att, hatt, hft⟩ := hdoc
          simp [AttachmentTypePhoto, AttachmentTypeDocument] at hatt hft
          rw [← hatt] at hft
          simp at hft
      · by_cases h3 : (part.content.length : Int) ≤ cfg.forwardedAttachmentMaxSize
        · have hpp : processPart typeByExtension part cfg =
              (some ⟨part.fileName, part.fileName, part.content,
                AttachmentTypeDocument⟩, strL "sending...") := by
            unfold processPart
            rw [if_neg (by simp [h2]), if_pos h3]
          rw [hpp]
          refine ⟨?_, ?_, ?_, ?_, ?_, ?_⟩
          · simp [h2, AttachmentTypePhoto, AttachmentTypeDocument]
          · simp [h2, h3]
          · simp [h2, h3]
          · simp [show strL "sending..." ≠ strL "discarded" from by decide]
          · intro h0 hphoto
            obtain ⟨att, hatt, hft⟩ := hphoto
            rw [Option.some.injEq] at hatt
            rw [← hatt] at hft
            simp [AttachmentTypePhoto, AttachmentTypeDocument] at hft
          · intro h0 _
            omega
        · have hpp : processPart typeByExtension part cfg =
              (none, strL "discarded") := by
            unfold processPart
            rw [if_neg (by simp [h2]), if_neg h3]
          rw [hpp]
          refine ⟨?_, ?_, ?_, ?_, ?_, ?_⟩
          · simp [h2]
          · simp [h2, h3]
          · simp [h2, h3]
          · simp
          · intro h0 hphoto
            obtain ⟨att, hatt, _⟩ := hphoto
            cases hatt
          · intro h0 hdoc
            obtain ⟨att, hatt, _⟩ := hdoc
            cases hatt
    · by_cases h3 : (part.content.length : Int) ≤ cfg.forwardedAttachmentMaxSize
      · have hpp : processPart typeByExtension part cfg =
            (some ⟨part.fileName, part.fileName, part.content,
              AttachmentTypeDocument⟩, strL "sending...") := by
          unfold processPart
          rw [if_neg (by simp [h1]), if_pos h3]
        rw [hpp]
        refine ⟨?_, ?_, ?_, ?_, ?_, ?_⟩
        · simp [h1, AttachmentTypePhoto, AttachmentTypeDocument]
        · simp [h1, h3]
        · simp [h1, h3]
        · simp [show strL "sending..." ≠ strL "discarded" from by decide]
        · intro h0 hphoto
          obtain ⟨att, hatt, hft⟩ := hphoto
          rw [Option.some.injEq] at hatt
          rw [← hatt] at hft
          simp [AttachmentTypePhoto, AttachmentTypeDocument] at hft
        · intro h0 _
          omega
      · have hpp : processPart typeByExtension part cfg =
            (none, strL "discarded") := by
          unfold processPart
          rw [if_neg (by simp [h1]), if_neg h3]
        rw [hpp]
        refine ⟨?_, ?_, ?_, ?_, ?_, ?_⟩
        · simp [h1]
        · simp [h1, h3]
        · simp [h1, h3]
        · simp
        · intro h0 hphoto
          obtain ⟨att, hatt, _⟩ := hphoto
          cases hatt
        · intro h0 hdoc
          obtain ⟨att, hatt, _⟩ := hdoc
          cases hatt
  · intro contentType
    unfold FileIsImage
    constructor
    · intro h
      rw [Bool.or_eq_true] at h
      rcases h with h2 | h2
      · exact Or.inl (by simpa using h2)
      · exact Or.inr (by simpa using h2)
    · rintro (rfl | rfl) <;> simp

/-- C9 witness: a small JPEG part within the photo ceiling is classified
as a photo. -/
theorem c9_part_classification_witness :
    (∃ att, (processPart (fun _ => []) ⟨strL "a.jpg", strL "image/jpeg", strL "JPG"⟩
        ⟨defaultMessageTemplate, 1024, 1024, 4095⟩).1 = some att ∧
      att.FileType = AttachmentTypePhoto) ↔
    (FileIsImage (GuessContentType (fun _ => []) (strL "image/jpeg") (strL "a.jpg")) =
        true ∧
      ((strL "JPG").length : Int) ≤ 1024) :=
  (c9_part_classification.1 (fun _ => [])
    ⟨strL "a.jpg", strL "image/jpeg", strL "JPG"⟩
    ⟨defaultMessageTemplate, 1024, 1024, 4095⟩).1

end SmtpToTelegram
